import Mathlib

set_option linter.unusedVariables false

/-!
Shallow embedding of the json_file repository: the classes TJSONFile
(src/TJSONFile.cxx, src/TJSONFile.h) and TKeyJSON (src/TKeyJSON.cxx).
Pure data is modelled directly; the mutable objects become explicit
state values; disk mutations become an explicit event list.
-/

/-- JSON values as far as the key code manipulates them: nlohmann::json
objects holding strings, integers and nested objects. -/
inductive JValue where
  | null
  | str (s : String)
  | int (n : Int)
  | obj (fields : List (String × JValue))

/-- Member lookup in a JSON object, as nlohmann::json operator[] on read. -/
def jlookup : List (String × JValue) → String → Option JValue
  | [], _ => none
  | (k, v) :: rest, key => if k = key then some v else jlookup rest key

/-- Member assignment in a JSON object, as nlohmann::json operator[] on
write: replaces an existing member or inserts a new one. (nlohmann keeps
members sorted by key; the claims only observe membership and lookup, for
which the association list is equivalent.) -/
def jset : List (String × JValue) → String → JValue → List (String × JValue)
  | [], key, v => [(key, v)]
  | (k, w) :: rest, key, v =>
      if k = key then (key, v) :: rest else (k, w) :: jset rest key v

/-- One TKeyJSON object (src/TKeyJSON.h): fName and fTitle are inherited
from TNamed, the rest are the members declared in TKeyJSON and TKey.
fCycle is Short_t and fKeyId Long64_t in the source; the claims stay far
from the wraparound bounds, so both are embedded as Int. -/
structure KeyJSON where
  fName : String
  fTitle : String
  fCycle : Int
  fKeyId : Int
  fDatime : String
  fClassName : String
  fSubdir : Bool
  fKeyNode : Option JValue

/-- The part of the owning TFile that TKeyJSON reads: the kReproducible
status bit tested in StoreKeyAttributes. -/
structure TFileCtx where
  kReproducible : Bool

/-- Rendering of TDatime((UInt_t) 1).AsSQLString(), the fixed timestamp
written under kReproducible; its exact text is a host detail, embedded as
an opaque constant. -/
def tdatimeOne : String := "1995-01-01 00:00:01"

/-- Node built by TKeyJSON::StoreKeyAttributes (src/TKeyJSON.cxx:197):
a fresh JSON object receiving name, cycle, title (only when non-empty)
and the creation timestamp. -/
def keyAttributesNode (ctx : TFileCtx) (k : KeyJSON) : List (String × JValue) :=
  let node0 := jset [] "name" (JValue.str k.fName)
  let node1 := jset node0 "cycle" (JValue.int k.fCycle)
  let node2 :=
    if 0 < k.fTitle.length then jset node1 "title" (JValue.str k.fTitle) else node1
  jset node2 "created"
    (JValue.str (if ctx.kReproducible then tdatimeOne else k.fDatime))

/-- TKeyJSON::StoreKeyAttributes (src/TKeyJSON.cxx:197): returns unchanged
when the file or the key node is missing; otherwise assigns the freshly
built attribute object over the whole key node
(the source line is star-fKeyNode = node). -/
def storeKeyAttributes (f : Option TFileCtx) (k : KeyJSON) : KeyJSON :=
  match f, k.fKeyNode with
  | some ctx, some _ => { k with fKeyNode := some (JValue.obj (keyAttributesNode ctx k)) }
  | _, _ => k

/-- TKeyJSON::StoreObject (src/TKeyJSON.cxx:221): after the guard it calls
StoreKeyAttributes, then sets the "Object" member of the key node to the
payload produced by the external codec (TBufferJSON::ConvertToJSON followed
by nlohmann parse, both external, passed in as enc), and finally updates
fClassName when a class was resolved (clName is the externally resolved
class name, covering the check_tobj actual-class resolution). -/
def storeObject (f : Option TFileCtx) (enc : JValue) (clName : Option String)
    (k : KeyJSON) : KeyJSON :=
  match f, k.fKeyNode with
  | some ctx, some _ =>
      let node := jset (keyAttributesNode ctx k) "Object" enc
      let k2 := { k with fKeyNode := some (JValue.obj node) }
      match clName with
      | some cn => { k2 with fClassName := cn }
      | none => k2
  | _, _ => k

/-- TKeyJSON::UpdateAttributes (src/TKeyJSON.cxx:253): returns when the key
node is missing, otherwise calls StoreKeyAttributes. -/
def updateAttributes (f : Option TFileCtx) (k : KeyJSON) : KeyJSON :=
  if k.fKeyNode.isNone then k else storeKeyAttributes f k

/-- TKeyJSON::UpdateObject (src/TKeyJSON.cxx:269): returns when the file,
the object or the key node is missing, otherwise calls
StoreObject(obj, nullptr, kTRUE); objPresent stands for the obj pointer
being non-null and enc / clName for the external codec result. -/
def updateObject (f : Option TFileCtx) (objPresent : Bool) (enc : JValue)
    (clName : Option String) (k : KeyJSON) : KeyJSON :=
  if f.isNone || !objPresent || k.fKeyNode.isNone then k
  else storeObject f enc clName k

/-- Observation: the key node is a JSON object containing the given member. -/
def keyNodeContains (k : KeyJSON) (field : String) : Bool :=
  match k.fKeyNode with
  | some (JValue.obj fields) => (jlookup fields field).isSome
  | _ => false

/-- Observation: the stored "Object" payload member of the key node. -/
def keyPayload (k : KeyJSON) : Option JValue :=
  match k.fKeyNode with
  | some (JValue.obj fields) => jlookup fields "Object"
  | _ => none

/-- Number of keys of a directory (its fKeys list) carrying the given name. -/
def countSameName (dir : List KeyJSON) (n : String) : Nat :=
  (dir.filter (fun k => k.fName == n)).length

/-- Modelled from the spec: TDirectory::AppendKey is host ROOT code that is
not part of this repository (the spec lists the directory abstraction as a
borrowed host collaborator); per the spec it determines the cycle of the
appended key as 1 + count of existing entries in the directory with the
same name. -/
def appendKeyCycle (dir : List KeyJSON) (n : String) : Int :=
  1 + (countSameName dir n : Int)

/-- The writing TKeyJSON constructors (src/TKeyJSON.cxx:90 and 120): set
name and title, obtain fCycle from AppendKey on the mother directory
(which also adds the key to the directory), allocate a fresh empty JSON
object as the key node, stamp fDatime and call StoreObject. Returns the
grown directory together with the new key. -/
def tkeyJSONNew (f : Option TFileCtx) (mother : List KeyJSON) (keyid : Int)
    (nm ttl datime : String) (enc : JValue) (clName : Option String) :
    List KeyJSON × KeyJSON :=
  let cycle := appendKeyCycle mother nm
  let k0 : KeyJSON :=
    { fName := nm, fTitle := ttl, fCycle := cycle, fKeyId := keyid,
      fDatime := datime, fClassName := "", fSubdir := false,
      fKeyNode := some (JValue.obj []) }
  let k1 := storeObject f enc clName k0
  (mother ++ [k1], k1)

/-- Abstract filesystem seen through gSystem->AccessPathName: existence,
write permission and read permission per path. -/
structure FileSystem where
  pathExists : String → Bool
  canWrite : String → Bool
  canRead : String → Bool

/-- Effect of gSystem->Unlink on the filesystem. -/
def fsRemove (fs : FileSystem) (p : String) : FileSystem :=
  { fs with pathExists := fun q => if q = p then false else fs.pathExists q }

/-- Disk mutations the embedded code can perform. -/
inductive DiskEvent where
  | unlink (path : String)
  | write (path : String)
deriving DecidableEq

/-- State of one TJSONFile object (members of src/TJSONFile.h plus the
inherited fields the claims read). fDoc is the JSON document pointer; no
code path of the source ever assigns it a document, so its payload type is
irrelevant and Unit is used. -/
structure JSONFileState where
  fRealName : String
  fOption : String
  fWritable : Bool
  fDoc : Option Unit
  fKeyCounter : Int
  fIOVersion : Int
deriving DecidableEq

/-- Result of the TJSONFile constructor: either a usable object or a
zombie (MakeZombie was called). -/
inductive OpenResult where
  | zombie
  | opened (st : JSONFileState)
deriving DecidableEq

/-- ASCII upper-casing of one character, as C toupper in the C locale
used by TString::ToUpper. -/
def asciiToUpper (c : Char) : Char :=
  if 97 ≤ c.toNat ∧ c.toNat ≤ 122 then Char.ofNat (c.toNat - 32) else c

/-- ASCII lower-casing of one character, as C tolower in the C locale
used by TString::ToLower. -/
def asciiToLower (c : Char) : Char :=
  if 65 ≤ c.toNat ∧ c.toNat ≤ 90 then Char.ofNat (c.toNat + 32) else c

/-- TString::ToUpper applied to an option string. -/
def tstringToUpper (s : String) : String := String.mk (s.data.map asciiToUpper)

/-- Constructor line 124: a leading "xml:" scheme is stripped from the
file name before any other processing. -/
def stripXmlScheme (f : String) : String :=
  if f.data.take 4 = "xml:".data then String.mk (f.data.drop 4) else f

/-- ClassDefOverride(TJSONFile, 0) makes Class_Version() return 0; the
constructor stores it into fIOVersion. -/
def tjsonfileClassVersion : Int := 0

/-- TJSONFile::ReadFromFile (src/TJSONFile.cxx:544): the entire body after
the first statement is commented out and the function immediately returns
kFALSE without reading the file or assigning fDoc. The pair returned here
is (value of fDoc after the call, returned Bool_t). -/
def readFromFile (fRealName : String) : Option Unit × Bool := (none, false)

/-- TJSONFile::InitJsonFile (src/TJSONFile.cxx:253): on create the
document pointer is left null; otherwise ReadFromFile is called and its
result is ignored, leaving fDoc at its in-class nullptr. -/
def initJsonFile (create : Bool) (fname : String) : Option Unit :=
  if create then none else (readFromFile fname).1

/-- TJSONFile constructor (src/TJSONFile.cxx:119), following the source
order: strip the "xml:" scheme, upper-case the option, alias NEW to
CREATE, default an unknown option to READ, reject an empty name, special
case a writable /dev/null, expand the path (identity here: path expansion
is delegated to the host and out of scope per spec section 1), unlink on
RECREATE, fail CREATE on an existing path, let UPDATE fall back to CREATE
on a missing path, check permissions for UPDATE and READ, then run
InitJsonFile. Disk mutations are returned as the event list. -/
def tjsonFileCtor (filename optStr : String) (fs : FileSystem) :
    OpenResult × List DiskEvent :=
  let fname0 := stripXmlScheme filename
  let opt0 := tstringToUpper optStr
  let opt1 := if opt0 = "NEW" then "CREATE" else opt0
  let create0 := opt1 = "CREATE"
  let recreate0 := opt1 = "RECREATE"
  let update0 := opt1 = "UPDATE"
  let read0 := opt1 = "READ"
  let noflag := ¬create0 ∧ ¬recreate0 ∧ ¬update0 ∧ ¬read0
  let read1 := read0 ∨ noflag
  let opt2 := if noflag then "READ" else opt1
  if fname0 = "" then (OpenResult.zombie, [])
  else
    let devnull := fname0 = "/dev/null" ∧ fs.canWrite "/dev/null" = true
    let create1 := if devnull then True else create0
    let recreate1 := if devnull then False else recreate0
    let update1 := if devnull then False else update0
    let read2 := if devnull then False else read1
    let opt3 := if devnull then "CREATE" else opt2
    let fname := fname0
    let unlinkNeeded := recreate1 ∧ fs.pathExists fname = true
    let fs1 := if unlinkNeeded then fsRemove fs fname else fs
    let events := if unlinkNeeded then [DiskEvent.unlink fname] else []
    let create2 := if recreate1 then True else create1
    let opt4 := if recreate1 then "CREATE" else opt3
    if create2 ∧ ¬devnull ∧ fs1.pathExists fname = true then (OpenResult.zombie, events)
    else
      let fallback := update1 ∧ fs1.pathExists fname = false
      let update2 := if fallback then False else update1
      let create3 := if fallback then True else create2
      if update2 ∧ fs1.canWrite fname = false then (OpenResult.zombie, events)
      else if read2 ∧ fs1.pathExists fname = false then (OpenResult.zombie, events)
      else if read2 ∧ fs1.canRead fname = false then (OpenResult.zombie, events)
      else
        (OpenResult.opened
          { fRealName := fname, fOption := opt4,
            fWritable := create3 ∨ update2,
            fDoc := initJsonFile (decide create3) fname,
            fKeyCounter := 0,
            fIOVersion := tjsonfileClassVersion }, events)

/-- TJSONFile::IsOpen (src/TJSONFile.cxx:357): true exactly when fDoc is
not null. -/
def tjsonIsOpen (s : JSONFileState) : Bool := s.fDoc.isSome

/-- TJSONFile::SaveToFile (src/TJSONFile.cxx:443): after the guard
if (!fDoc) return, the remaining body is entirely commented out in the
source, so no disk write happens on either branch. -/
def saveToFile (s : JSONFileState) : List DiskEvent :=
  match s.fDoc with
  | none => []
  | some _ => []

/-- TJSONFile::Close (src/TJSONFile.cxx:291): returns at once when the
file is not open; otherwise saves when writable, clears fWritable and
releases the document. The host-side teardown (class index, process ids,
the global file registry) carries no observable state for the claims. -/
def tjsonClose (s : JSONFileState) : JSONFileState × List DiskEvent :=
  if tjsonIsOpen s = false then (s, [])
  else
    let events := if s.fWritable then saveToFile s else []
    ({ s with fWritable := false, fDoc := none }, events)

/-- TJSONFile::CreateKey, both overloads (src/TJSONFile.cxx:402 and 410):
the new key id is ++fKeyCounter. -/
def createKeyId (s : JSONFileState) : JSONFileState × Int :=
  ({ s with fKeyCounter := s.fKeyCounter + 1 }, s.fKeyCounter + 1)

/-- TJSONFile::DirCreateEntry (src/TJSONFile.cxx:899): the subdirectory
key also receives ++fKeyCounter as its id. -/
def dirCreateEntryId (s : JSONFileState) : JSONFileState × Int :=
  ({ s with fKeyCounter := s.fKeyCounter + 1 }, s.fKeyCounter + 1)

/-- Key-management operations of one document; the directory argument
records that keys may target any directory, which the id allocation never
consults. -/
inductive DocOp where
  | createKeyObj (dir : Nat)
  | createKeyAny (dir : Nat)
  | dirEntry (dir : Nat)
  | deleteKey (id : Int)

/-- One step of the document state: CreateKey and DirCreateEntry allocate
an id, TKeyJSON::Delete (src/TKeyJSON.cxx:184) removes a key without
touching fKeyCounter. -/
def docOpStep (s : JSONFileState) : DocOp → JSONFileState × Option Int
  | DocOp.createKeyObj _ => ((createKeyId s).1, some (createKeyId s).2)
  | DocOp.createKeyAny _ => ((createKeyId s).1, some (createKeyId s).2)
  | DocOp.dirEntry _ => ((dirCreateEntryId s).1, some (dirCreateEntryId s).2)
  | DocOp.deleteKey _ => (s, none)

/-- Ids assigned, in order, when running a list of operations. -/
def assignedIds : JSONFileState → List DocOp → List Int
  | _, [] => []
  | s, op :: rest =>
      match h : docOpStep s op with
      | (s1, some i) => i :: assignedIds s1 rest
      | (s1, none) => assignedIds s1 rest

/-- Document state after running a list of operations. -/
def execOps : JSONFileState → List DocOp → JSONFileState
  | s, [] => s
  | s, op :: rest => execOps (docOpStep s op).1 rest

/-- TJSONFile::ProduceFileNames (src/TJSONFile.cxx:418) on the character
list of the TString: the ".json" suffix test fires only when the length
exceeds 5 and the lower-cased last five characters equal ".json". -/
def produceFileNames (filename : List Char) : List Char :=
  let fname := filename
  let hasjsonext : Bool :=
    if 5 < fname.length then
      ((fname.drop (fname.length - 5)).map asciiToLower) == ".json".data
    else false
  if hasjsonext then fname else fname ++ ".json".data

/-- Predicate written from the words of the claim, not from the source:
the name ends, case-insensitively, in ".json". Used to compare
produceFileNames against the claim. -/
def specEndsInJsonCI (s : List Char) : Bool :=
  decide (5 ≤ s.length) && ((s.drop (s.length - 5)).map asciiToLower == ".json".data)

/-- TClass as far as TKeyJSON::JsonReadAny reads it: the class name and
the TClass::EState value returned by GetState(). -/
structure TClassM where
  clName : String
  clState : Int
deriving DecidableEq

/-- TClass::kEmulated, the third enumerator of TClass::EState. -/
def kEmulatedState : Int := 2

/-- Side effects of one JsonReadAny call: whether the freshly decoded
object was destroyed, and whether the emulated-class warning was issued. -/
structure ReadEffects where
  destroyedRes : Bool
  warned : Bool
deriving DecidableEq

/-- TKeyJSON::JsonReadAny (src/TKeyJSON.cxx:385). The external pieces are
passed in: offs gives TClass::GetBaseClassOffset between class names
(negative when the second is not a base of the first), decodeRes is the
result of TBufferJSON::ConvertFromJSONAny as an address and a resolved
class (none when the codec yields a null class or object), obj is the
caller-supplied object address. Returns the resulting address and the
side effects. -/
def jsonReadAny (offs : String → String → Int) (hasFile : Bool)
    (keyNodePresent : Bool) (decodeRes : Option (Int × TClassM))
    (obj : Option Int) (expectedClass : Option TClassM) :
    Option Int × ReadEffects :=
  if !keyNodePresent || !hasFile then (obj, ⟨false, false⟩)
  else
    match decodeRes with
    | none => (obj, ⟨false, false⟩)
    | some (res, cl) =>
        match expectedClass with
        | none => (some res, ⟨false, false⟩)
        | some exp =>
            let delta := offs cl.clName exp.clName
            if delta < 0 then
              (none, ⟨obj.isNone, false⟩)
            else
              (some (res + delta),
               ⟨false, decide (kEmulatedState < cl.clState) &&
                       decide (exp.clState ≤ kEmulatedState)⟩)

/-- Filesystem with no files, everything writable and readable. -/
def fsNoFiles : FileSystem :=
  { pathExists := fun _ => false, canWrite := fun _ => true, canRead := fun _ => true }

/-- Filesystem in which only "exists.json" exists. -/
def fsExistingA : FileSystem :=
  { pathExists := fun p => p == "exists.json", canWrite := fun _ => true,
    canRead := fun _ => true }

/-- Filesystem in which only "/dev/null" exists, with write permission. -/
def fsDevNull : FileSystem :=
  { pathExists := fun p => p == "/dev/null", canWrite := fun _ => true,
    canRead := fun _ => true }

/-- Filesystem in which only "future.json" exists, readable. -/
def fsFutureFile : FileSystem :=
  { pathExists := fun p => p == "future.json", canWrite := fun _ => true,
    canRead := fun _ => true }

/-- State produced by a RECREATE open of "f.json" on fsNoFiles. -/
def stFreshCreate : JSONFileState :=
  { fRealName := "f.json", fOption := "CREATE", fWritable := true,
    fDoc := none, fKeyCounter := 0, fIOVersion := 0 }

/-- State produced by a CREATE open of "g.json" on fsNoFiles. -/
def stFreshG : JSONFileState :=
  { fRealName := "g.json", fOption := "CREATE", fWritable := true,
    fDoc := none, fKeyCounter := 0, fIOVersion := 0 }

/-- State produced by a READ open of "future.json" on fsFutureFile. -/
def stFutureRead : JSONFileState :=
  { fRealName := "future.json", fOption := "READ", fWritable := false,
    fDoc := none, fKeyCounter := 0, fIOVersion := 0 }

/-- Claim C1: evaluation of the code at the failing input of the create.cxx
driver. Opening "f.json" writable with mode recreate succeeds, yet the
store reports not-open (fDoc was never allocated), Close returns at its
first check performing zero disk writes (the file is never serialized, not
even once), and a second Close is equally a no-op. The claim says Close
stamps the header and writes the document to the target path exactly
once. -/
theorem close_after_writable_open_writes_nothing :
    tjsonFileCtor "f.json" "recreate" fsNoFiles = (OpenResult.opened stFreshCreate, []) ∧
    stFreshCreate.fWritable = true ∧
    tjsonIsOpen stFreshCreate = false ∧
    tjsonClose stFreshCreate = (stFreshCreate, []) ∧
    tjsonClose (tjsonClose stFreshCreate).1 = (stFreshCreate, []) := by decide

/-- Claim C5: evaluation of the code at the failing input. Opening for READ
an existing readable file succeeds as a non-zombie store no matter what the
file contains: ReadFromFile returns kFALSE immediately without parsing
anything, InitJsonFile ignores that result, and no version is ever
compared, so a stored io-version above the supported one can never produce
a VersionError. The claim says such an open fails with VersionError and is
aborted entirely. -/
theorem read_open_skips_version_gate :
    tjsonFileCtor "future.json" "READ" fsFutureFile = (OpenResult.opened stFutureRead, []) ∧
    readFromFile "future.json" = (none, false) ∧
    tjsonIsOpen stFutureRead = false := by decide

/-- File context without the kReproducible bit. -/
def ctxPlain : TFileCtx := { kReproducible := false }

/-- A key entry holding a stored payload under its "Object" member. -/
def keyWithPayload : KeyJSON :=
  { fName := "hist", fTitle := "the histo", fCycle := 1, fKeyId := 1,
    fDatime := "2022-07-08 12:00:00", fClassName := "TH1F", fSubdir := false,
    fKeyNode := some (JValue.obj
      [("name", JValue.str "hist"), ("cycle", JValue.int 1),
       ("title", JValue.str "the histo"),
       ("created", JValue.str "2022-07-08 12:00:00"),
       ("Object", JValue.obj [("_typename", JValue.str "TH1F")])]) }

/-- Claim C7: evaluation of the code at the failing input. UpdateAttributes
on a key holding a payload does re-stamp name, title, cycle and creation
timestamp, but StoreKeyAttributes assigns a fresh attributes-only object
over the whole key node, so the stored "Object" payload member is destroyed
rather than left unchanged as the claim states. -/
theorem updateAttributes_destroys_payload :
    keyNodeContains keyWithPayload "Object" = true ∧
    keyNodeContains (updateAttributes (some ctxPlain) keyWithPayload) "name" = true ∧
    keyNodeContains (updateAttributes (some ctxPlain) keyWithPayload) "title" = true ∧
    keyNodeContains (updateAttributes (some ctxPlain) keyWithPayload) "cycle" = true ∧
    keyNodeContains (updateAttributes (some ctxPlain) keyWithPayload) "created" = true ∧
    keyNodeContains (updateAttributes (some ctxPlain) keyWithPayload) "Object" = false := by
  decide

/-- Claim C9, counterexample: the five-character name ".json" ends
case-insensitively in ".json", yet ProduceFileNames appends another
suffix because its test additionally requires the length to exceed 5, so
the result is ".json.json" instead of the unchanged name the claim
demands. -/
theorem produceFileNames_dotjson_changed :
    specEndsInJsonCI ".json".data = true ∧
    produceFileNames ".json".data = ".json.json".data ∧
    ¬ produceFileNames ".json".data = ".json".data := by decide

/-- Each document operation never decreases the key counter. -/
theorem docOpStep_counter_le (s : JSONFileState) (op : DocOp) :
    s.fKeyCounter ≤ (docOpStep s op).1.fKeyCounter := by
  cases op <;> simp [docOpStep, createKeyId, dirCreateEntryId]

/-- Running operations never decreases the key counter. -/
theorem execOps_counter_le :
    ∀ (ops : List DocOp) (s : JSONFileState),
      s.fKeyCounter ≤ (execOps s ops).fKeyCounter := by
  intro ops
  induction ops with
  | nil => intro s; simp [execOps]
  | cons op rest ih =>
      intro s
      exact le_trans (docOpStep_counter_le s op) (ih (docOpStep s op).1)

/-- Every id assigned while running ops lies strictly above the starting
counter and at or below the final counter. -/
theorem assignedIds_mem_bounds :
    ∀ (ops : List DocOp) (s : JSONFileState) (i : Int),
      i ∈ assignedIds s ops →
      s.fKeyCounter < i ∧ i ≤ (execOps s ops).fKeyCounter := by
  intro ops
  induction ops with
  | nil => intro s i h; simp [assignedIds] at h
  | cons op rest ih =>
      intro s i h
      cases op with
      | createKeyObj d =>
          simp only [assignedIds, docOpStep, createKeyId, List.mem_cons] at h
          rcases h with h | h
          · subst h
            refine ⟨by omega, ?_⟩
            simpa [execOps, docOpStep, createKeyId] using
              execOps_counter_le rest { s with fKeyCounter := s.fKeyCounter + 1 }
          · have := ih _ _ h
            simp only [execOps, docOpStep, createKeyId]
            constructor
            · have h1 := this.1
              simp only at h1
              omega
            · exact this.2
      | createKeyAny d =>
          simp only [assignedIds, docOpStep, createKeyId, List.mem_cons] at h
          rcases h with h | h
          · subst h
            refine ⟨by omega, ?_⟩
            simpa [execOps, docOpStep, createKeyId] using
              execOps_counter_le rest { s with fKeyCounter := s.fKeyCounter + 1 }
          · have := ih _ _ h
            simp only [execOps, docOpStep, createKeyId]
            constructor
            · have h1 := this.1
              simp only at h1
              omega
            · exact this.2
      | dirEntry d =>
          simp only [assignedIds, docOpStep, dirCreateEntryId, List.mem_cons] at h
          rcases h with h | h
          · subst h
            refine ⟨by omega, ?_⟩
            simpa [execOps, docOpStep, dirCreateEntryId] using
              execOps_counter_le rest { s with fKeyCounter := s.fKeyCounter + 1 }
          · have := ih _ _ h
            simp only [execOps, docOpStep, dirCreateEntryId]
            constructor
            · have h1 := this.1
              simp only at h1
              omega
            · exact this.2
      | deleteKey d =>
          simp only [assignedIds, docOpStep] at h
          have := ih _ _ h
          simpa [execOps, docOpStep] using this

/-- Claim C3: within one document, every CreateKey and DirCreateEntry
assigns an id strictly greater than every id previously assigned, whatever
directory each key targets, and after a deleteKey the deleted id is never
assigned again later (TKeyJSON::Delete leaves fKeyCounter untouched, and
all later ids exceed the counter). -/
theorem key_ids_strictly_increasing :
    ∀ (s : JSONFileState) (ops : List DocOp),
      List.Pairwise (· < ·) (assignedIds s ops) ∧
      ∀ (pre post : List DocOp) (d : Int), ops = pre ++ post →
        d ∈ assignedIds s pre → d ∉ assignedIds (execOps s pre) post := by
  intro s ops
  constructor
  · induction ops generalizing s with
    | nil => simp [assignedIds]
    | cons op rest ih =>
        cases op with
        | createKeyObj d =>
            simp only [assignedIds, docOpStep, createKeyId]
            refine List.Pairwise.cons ?_ (ih _)
            intro j hj
            have := (assignedIds_mem_bounds rest _ j hj).1
            simp only at this
            omega
        | createKeyAny d =>
            simp only [assignedIds, docOpStep, createKeyId]
            refine List.Pairwise.cons ?_ (ih _)
            intro j hj
            have := (assignedIds_mem_bounds rest _ j hj).1
            simp only at this
            omega
        | dirEntry d =>
            simp only [assignedIds, docOpStep, dirCreateEntryId]
            refine List.Pairwise.cons ?_ (ih _)
            intro j hj
            have := (assignedIds_mem_bounds rest _ j hj).1
            simp only at this
            omega
        | deleteKey d =>
            simp only [assignedIds, docOpStep]
            exact ih _
  · intro pre post d hsplit hpre hpost
    have h1 := (assignedIds_mem_bounds pre s d hpre).2
    have h2 := (assignedIds_mem_bounds post (execOps s pre) d hpost).1
    omega

/-- Claim C3, witness: a concrete run creating a key (id 1), deleting it,
then creating a subdirectory entry (id 2): the ids are strictly
increasing and the deleted id 1 is not assigned again after its
deletion. -/
theorem key_ids_strictly_increasing_witness :
    List.Pairwise (· < ·)
      (assignedIds stFreshCreate
        [DocOp.createKeyObj 0, DocOp.deleteKey 1, DocOp.dirEntry 0]) ∧
    1 ∉ assignedIds (execOps stFreshCreate [DocOp.createKeyObj 0])
        [DocOp.deleteKey 1, DocOp.dirEntry 0] :=
  ⟨(key_ids_strictly_increasing stFreshCreate
      [DocOp.createKeyObj 0, DocOp.deleteKey 1, DocOp.dirEntry 0]).1,
   (key_ids_strictly_increasing stFreshCreate
      [DocOp.createKeyObj 0, DocOp.deleteKey 1, DocOp.dirEntry 0]).2
     [DocOp.createKeyObj 0] [DocOp.deleteKey 1, DocOp.dirEntry 0] 1 rfl
     (by decide)⟩

/-- StoreObject only rewrites the key node and the class name: name,
title, cycle and id are untouched. -/
theorem storeObject_preserves_fields (f : Option TFileCtx) (enc : JValue)
    (cn : Option String) (k : KeyJSON) :
    (storeObject f enc cn k).fName = k.fName ∧
    (storeObject f enc cn k).fTitle = k.fTitle ∧
    (storeObject f enc cn k).fCycle = k.fCycle ∧
    (storeObject f enc cn k).fKeyId = k.fKeyId := by
  cases f with
  | none => simp [storeObject]
  | some ctx =>
      cases hk : k.fKeyNode with
      | none => simp [storeObject, hk]
      | some node => cases cn <;> simp [storeObject, hk]

/-- Counting keys of one name distributes over directory concatenation. -/
theorem countSameName_append (d1 d2 : List KeyJSON) (n : String) :
    countSameName (d1 ++ d2) n = countSameName d1 n + countSameName d2 n := by
  simp [countSameName, List.filter_append]

/-- Count of one name in a one-key directory. -/
theorem countSameName_single (k : KeyJSON) (n : String) :
    countSameName [k] n = if k.fName == n then 1 else 0 := by
  cases h : k.fName == n <;> simp [countSameName, List.filter, h]

/-- Claim C2: a key created in a directory receives cycle
1 + count of entries already present there with the same name; in
particular two keys named "hist" created in a directory holding no "hist"
yet receive cycles 1 and 2. -/
theorem cycle_one_plus_samename_count :
    ∀ (f : Option TFileCtx) (dir : List KeyJSON) (keyid : Int)
      (nm ttl dt : String) (enc : JValue) (cn : Option String),
      ((tkeyJSONNew f dir keyid nm ttl dt enc cn).2.fCycle
          = 1 + (countSameName dir nm : Int)) ∧
      (countSameName dir "hist" = 0 →
        ∀ (f2 : Option TFileCtx) (keyid2 : Int) (ttl2 dt2 : String)
          (enc2 : JValue) (cn2 : Option String),
          (tkeyJSONNew f dir keyid "hist" ttl dt enc cn).2.fCycle = 1 ∧
          (tkeyJSONNew f2 (tkeyJSONNew f dir keyid "hist" ttl dt enc cn).1
              keyid2 "hist" ttl2 dt2 enc2 cn2).2.fCycle = 2) := by
  have hbase : ∀ (f : Option TFileCtx) (dir : List KeyJSON) (keyid : Int)
      (nm ttl dt : String) (enc : JValue) (cn : Option String),
      (tkeyJSONNew f dir keyid nm ttl dt enc cn).2.fCycle
        = 1 + (countSameName dir nm : Int) := by
    intro f dir keyid nm ttl dt enc cn
    have h := (storeObject_preserves_fields f enc cn
      { fName := nm, fTitle := ttl, fCycle := appendKeyCycle dir nm,
        fKeyId := keyid, fDatime := dt, fClassName := "", fSubdir := false,
        fKeyNode := some (JValue.obj []) }).2.2.1
    simpa [tkeyJSONNew, appendKeyCycle] using h
  have hname : ∀ (f : Option TFileCtx) (dir : List KeyJSON) (keyid : Int)
      (nm ttl dt : String) (enc : JValue) (cn : Option String),
      (tkeyJSONNew f dir keyid nm ttl dt enc cn).2.fName = nm := by
    intro f dir keyid nm ttl dt enc cn
    have h := (storeObject_preserves_fields f enc cn
      { fName := nm, fTitle := ttl, fCycle := appendKeyCycle dir nm,
        fKeyId := keyid, fDatime := dt, fClassName := "", fSubdir := false,
        fKeyNode := some (JValue.obj []) }).1
    simpa [tkeyJSONNew] using h
  intro f dir keyid nm ttl dt enc cn
  refine ⟨hbase f dir keyid nm ttl dt enc cn, ?_⟩
  intro hcount f2 keyid2 ttl2 dt2 enc2 cn2
  constructor
  · rw [hbase]
    rw [hcount]
    simp
  · rw [hbase]
    have hdir : (tkeyJSONNew f dir keyid "hist" ttl dt enc cn).1
        = dir ++ [(tkeyJSONNew f dir keyid "hist" ttl dt enc cn).2] := by
      simp [tkeyJSONNew]
    rw [hdir, countSameName_append, hcount, countSameName_single,
        hname f dir keyid "hist" ttl dt enc cn]
    simp

/-- Claim C2, witness: two keys named "hist" written into an initially
empty directory receive cycles 1 and 2. -/
theorem cycle_one_plus_samename_count_witness :
    (tkeyJSONNew none [] 1 "hist" "t" "d" (JValue.obj []) none).2.fCycle = 1 ∧
    (tkeyJSONNew none (tkeyJSONNew none [] 1 "hist" "t" "d" (JValue.obj []) none).1
        2 "hist" "t2" "d2" (JValue.obj []) none).2.fCycle = 2 := by
  have h := (cycle_one_plus_samename_count none [] 1 "hist" "t" "d"
      (JValue.obj []) none).2 (by decide) none 2 "t2" "d2" (JValue.obj []) none
  exact h

/-- Looking up a member right after assigning it yields the assigned
value. -/
theorem jlookup_jset_self (l : List (String × JValue)) (key : String) (v : JValue) :
    jlookup (jset l key v) key = some v := by
  induction l with
  | nil => simp [jset, jlookup]
  | cons p rest ih =>
      rcases p with ⟨k, w⟩
      by_cases h : k = key
      · simp [jset, h, jlookup]
      · simp [jset, h, jlookup, ih]

/-- Claim C8: UpdateObject preserves the key id and the cycle number in
every case, and when the guard passes (file present, object present, key
node present) it replaces the payload of the key node with the fresh
codec encoding. -/
theorem updateObject_preserves_id_and_cycle :
    ∀ (f : Option TFileCtx) (objPresent : Bool) (enc : JValue)
      (cn : Option String) (k : KeyJSON),
      (updateObject f objPresent enc cn k).fKeyId = k.fKeyId ∧
      (updateObject f objPresent enc cn k).fCycle = k.fCycle ∧
      (∀ (ctx : TFileCtx) (fields : List (String × JValue)),
        f = some ctx → objPresent = true →
        k.fKeyNode = some (JValue.obj fields) →
        keyPayload (updateObject f objPresent enc cn k) = some enc) := by
  intro f objPresent enc cn k
  refine ⟨?_, ?_, ?_⟩
  · by_cases hguard : (f.isNone || !objPresent || k.fKeyNode.isNone) = true
    · simp [updateObject, hguard]
    · simp only [updateObject, if_neg hguard]
      exact (storeObject_preserves_fields f enc cn k).2.2.2
  · by_cases hguard : (f.isNone || !objPresent || k.fKeyNode.isNone) = true
    · simp [updateObject, hguard]
    · simp only [updateObject, if_neg hguard]
      exact (storeObject_preserves_fields f enc cn k).2.2.1
  · intro ctx fields hf hobj hk
    subst hf
    subst hobj
    cases cn <;>
      simp [updateObject, hk, storeObject, keyPayload, jlookup_jset_self]

/-- Claim C8, witness: a concrete UpdateObject call on a key holding a
payload keeps id and cycle and installs the new encoding as payload. -/
theorem updateObject_preserves_id_and_cycle_witness :
    (updateObject (some ctxPlain) true (JValue.str "enc") (some "TH1F")
        keyWithPayload).fKeyId = keyWithPayload.fKeyId ∧
    (updateObject (some ctxPlain) true (JValue.str "enc") (some "TH1F")
        keyWithPayload).fCycle = keyWithPayload.fCycle ∧
    keyPayload (updateObject (some ctxPlain) true (JValue.str "enc") (some "TH1F")
        keyWithPayload) = some (JValue.str "enc") :=
  ⟨(updateObject_preserves_id_and_cycle (some ctxPlain) true (JValue.str "enc")
      (some "TH1F") keyWithPayload).1,
   (updateObject_preserves_id_and_cycle (some ctxPlain) true (JValue.str "enc")
      (some "TH1F") keyWithPayload).2.1,
   (updateObject_preserves_id_and_cycle (some ctxPlain) true (JValue.str "enc")
      (some "TH1F") keyWithPayload).2.2 ctxPlain _ rfl rfl rfl⟩

/-- Claim C6: when the decoded class does not have the expected class as a
base (negative base-class offset) JsonReadAny returns null instead of
casting, destroying the freshly decoded object exactly when the caller
supplied none; when the offset is non-negative the call succeeds with the
adjusted address, and the non-fatal warning fires exactly for a compiled
resolved class paired with an at-most-emulated expected class. -/
theorem jsonReadAny_type_mismatch :
    ∀ (offs : String → String → Int) (res : Int) (cl exp : TClassM)
      (obj : Option Int),
      (offs cl.clName exp.clName < 0 →
        jsonReadAny offs true true (some (res, cl)) obj (some exp)
          = (none, { destroyedRes := obj.isNone, warned := false })) ∧
      (0 ≤ offs cl.clName exp.clName →
        (jsonReadAny offs true true (some (res, cl)) obj (some exp)).1
            = some (res + offs cl.clName exp.clName) ∧
        ((jsonReadAny offs true true (some (res, cl)) obj (some exp)).2.warned = true ↔
          (kEmulatedState < cl.clState ∧ exp.clState ≤ kEmulatedState))) := by
  intro offs res cl exp obj
  constructor
  · intro h
    simp [jsonReadAny, h]
  · intro h
    have h2 : ¬ offs cl.clName exp.clName < 0 := not_lt.2 h
    refine ⟨by simp [jsonReadAny, h2], ?_⟩
    simp [jsonReadAny, h2]

/-- Base-class offset table used by the C6 witness: the expected class is
never a base. -/
def offsNeg : String → String → Int := fun _ _ => -1

/-- Base-class offset table used by the C6 witness: the expected class sits
at offset 3. -/
def offsPos : String → String → Int := fun _ _ => 3

/-- A compiled class (state above kEmulated). -/
def clCompiled : TClassM := { clName := "TH1F", clState := 4 }

/-- An emulated class (state kEmulated). -/
def clEmulated : TClassM := { clName := "TNamed", clState := 2 }

/-- Claim C6, witness: with no caller object and a non-base expected class
the call returns null and destroys the decoded object; with a valid offset
and a compiled-versus-emulated pair it returns the adjusted address and
warns. -/
theorem jsonReadAny_type_mismatch_witness :
    jsonReadAny offsNeg true true (some (100, clCompiled)) none (some clEmulated)
      = (none, { destroyedRes := true, warned := false }) ∧
    ((jsonReadAny offsPos true true (some (100, clCompiled)) none (some clEmulated)).1
        = some 103 ∧
     (jsonReadAny offsPos true true (some (100, clCompiled)) none
        (some clEmulated)).2.warned = true) :=
  ⟨(jsonReadAny_type_mismatch offsNeg 100 clCompiled clEmulated none).1 (by decide),
   ((jsonReadAny_type_mismatch offsPos 100 clCompiled clEmulated none).2 (by decide)).1,
   ((jsonReadAny_type_mismatch offsPos 100 clCompiled clEmulated none).2
      (by decide)).2.mpr ⟨by decide, by decide⟩⟩

/-- Lower-casing the suffix ".json" is the identity. -/
theorem asciiToLower_json : (".json".data).map asciiToLower = ".json".data := by
  decide

/-- Length of the ".json" suffix. -/
theorem json_suffix_length : (".json".data).length = 5 := by decide

/-- The suffix test of ProduceFileNames, as a reusable equation. -/
theorem produceFileNames_eq (s : List Char) :
    produceFileNames s =
      if (if 5 < s.length
            then ((s.drop (s.length - 5)).map asciiToLower) == ".json".data
            else false) = true
      then s else s ++ ".json".data := rfl

/-- ProduceFileNames keeps a long name already ending in ".json". -/
theorem produceFileNames_hasext (s : List Char) (h1 : 5 < s.length)
    (h2 : (s.drop (s.length - 5)).map asciiToLower = ".json".data) :
    produceFileNames s = s := by
  rw [produceFileNames_eq, if_pos h1, h2, beq_self_eq_true]
  simp

/-- ProduceFileNames appends ".json" when the suffix test fails. -/
theorem produceFileNames_noext (s : List Char)
    (h : ¬ (5 < s.length ∧ (s.drop (s.length - 5)).map asciiToLower = ".json".data)) :
    produceFileNames s = s ++ ".json".data := by
  rw [produceFileNames_eq]
  by_cases h1 : 5 < s.length
  · have h2 : ¬ (s.drop (s.length - 5)).map asciiToLower = ".json".data :=
      fun hc => h ⟨h1, hc⟩
    rw [if_pos h1]
    have hb : (((s.drop (s.length - 5)).map asciiToLower) == ".json".data) = false := by
      exact beq_eq_false_iff_ne.mpr h2
    rw [hb]
    simp
  · rw [if_neg h1]
    simp

/-- Claim C9, amended: ProduceFileNames returns the name unchanged when
its length exceeds five characters and it ends case-insensitively in
".json", and otherwise appends ".json" (in particular the five-character
name ".json" itself receives a second suffix); the produced name always
ends case-insensitively in ".json". -/
theorem produceFileNames_json_suffix :
    ∀ s : List Char,
      (5 < s.length →
        (s.drop (s.length - 5)).map asciiToLower = ".json".data →
        produceFileNames s = s) ∧
      (¬ (5 < s.length ∧ (s.drop (s.length - 5)).map asciiToLower = ".json".data) →
        produceFileNames s = s ++ ".json".data) ∧
      specEndsInJsonCI (produceFileNames s) = true := by
  intro s
  have happ : specEndsInJsonCI (s ++ ".json".data) = true := by
    have hdrop : (s ++ ".json".data).drop ((s ++ ".json".data).length - 5)
        = ".json".data := by
      rw [List.length_append, json_suffix_length, Nat.add_sub_cancel,
          List.drop_left]
    unfold specEndsInJsonCI
    rw [hdrop, asciiToLower_json, beq_self_eq_true, Bool.and_true]
    exact decide_eq_true
      (by rw [List.length_append, json_suffix_length]; omega)
  refine ⟨produceFileNames_hasext s, produceFileNames_noext s, ?_⟩
  by_cases h1 : 5 < s.length
  · by_cases h2 : (s.drop (s.length - 5)).map asciiToLower = ".json".data
    · rw [produceFileNames_hasext s h1 h2]
      unfold specEndsInJsonCI
      rw [h2, beq_self_eq_true, Bool.and_true]
      exact decide_eq_true (by omega)
    · rw [produceFileNames_noext s (fun hc => h2 hc.2)]
      exact happ
  · rw [produceFileNames_noext s (fun hc => h1 hc.1)]
    exact happ

/-- Claim C9, witness: a name longer than five characters ending in
".json" is kept, a name without the suffix gets ".json" appended and the
result carries the suffix. -/
theorem produceFileNames_json_suffix_witness :
    produceFileNames "a.json".data = "a.json".data ∧
    produceFileNames "x".data = "x".data ++ ".json".data ∧
    specEndsInJsonCI (produceFileNames "x".data) = true :=
  ⟨(produceFileNames_json_suffix "a.json".data).1 (by decide) (by decide),
   (produceFileNames_json_suffix "x".data).2.1 (by decide),
   (produceFileNames_json_suffix "x".data).2.2⟩

/-- InitJsonFile leaves the document pointer null on both branches. -/
theorem initJsonFile_none (b : Bool) (f : String) : initJsonFile b f = none := by
  cases b <;> rfl

set_option maxHeartbeats 1600000 in
/-- Claim C10: IsOpen is true exactly when the document pointer is
non-null, every successful constructor run (in particular every writable
creation open: CREATE, RECREATE, or UPDATE falling back to CREATE) leaves
that pointer null, so the fresh store reports not-open, and Close on it
returns at its first check with no disk event. -/
theorem isOpen_iff_doc_and_fresh_store_closed :
    (∀ s : JSONFileState, tjsonIsOpen s = s.fDoc.isSome) ∧
    ∀ (filename optStr : String) (fs : FileSystem) (st : JSONFileState)
      (ev : List DiskEvent),
      tjsonFileCtor filename optStr fs = (OpenResult.opened st, ev) →
      tjsonIsOpen st = false ∧ tjsonClose st = (st, []) := by
  refine ⟨fun s => rfl, ?_⟩
  intro filename optStr fs st ev h
  have hdoc : st.fDoc = none := by
    simp only [tjsonFileCtor] at h
    repeat' split at h
    all_goals
      first
        | exact OpenResult.noConfusion (congrArg Prod.fst h)
        | (injection h with h1 h2
           injection h1 with h1
           rw [← h1]
           simp [initJsonFile_none])
  refine ⟨?_, ?_⟩
  · simp [tjsonIsOpen, hdoc]
  · simp [tjsonClose, tjsonIsOpen, hdoc]

/-- Claim C10, witness: a CREATE open of "g.json" on an empty filesystem
reports not-open and Close on it is a no-op. -/
theorem isOpen_iff_doc_and_fresh_store_closed_witness :
    tjsonIsOpen stFreshG = false ∧ tjsonClose stFreshG = (stFreshG, []) :=
  isOpen_iff_doc_and_fresh_store_closed.2 "g.json" "CREATE" fsNoFiles stFreshG []
    (by decide)

set_option maxHeartbeats 1600000 in
/-- Claim C4: opening with mode CREATE (or its alias NEW) when the target
path already exists leaves a zombie store and performs zero disk
mutations; the exception is a target equal to the platform null device
(which, being a null device, grants write permission): it bypasses the
existence check and opens as a writable CREATE store. -/
theorem create_on_existing_path_fails :
    ∀ (fs : FileSystem) (filename : String),
      (stripXmlScheme filename ≠ "" →
        ¬(stripXmlScheme filename = "/dev/null" ∧ fs.canWrite "/dev/null" = true) →
        fs.pathExists (stripXmlScheme filename) = true →
        tjsonFileCtor filename "CREATE" fs = (OpenResult.zombie, []) ∧
        tjsonFileCtor filename "NEW" fs = (OpenResult.zombie, [])) ∧
      (stripXmlScheme filename = "/dev/null" → fs.canWrite "/dev/null" = true →
        tjsonFileCtor filename "CREATE" fs =
          (OpenResult.opened
            { fRealName := stripXmlScheme filename, fOption := "CREATE",
              fWritable := true, fDoc := none, fKeyCounter := 0,
              fIOVersion := tjsonfileClassVersion }, [])) := by
  intro fs filename
  have hCU : tstringToUpper "CREATE" = "CREATE" := by decide
  have hNU : tstringToUpper "NEW" = "NEW" := by decide
  constructor
  · intro h1 h2 h3
    constructor
    · simp [tjsonFileCtor, hCU, h1, h2, h3, initJsonFile]
    · simp [tjsonFileCtor, hNU, h1, h2, h3, initJsonFile]
  · intro hd hw
    simp [tjsonFileCtor, hCU, hd, hw, initJsonFile, readFromFile]

/-- Claim C4, witness: CREATE and NEW on the existing "exists.json" yield a
zombie with no disk mutation, while CREATE on a writable "/dev/null"
(although it exists) opens a writable store. -/
theorem create_on_existing_path_fails_witness :
    tjsonFileCtor "exists.json" "CREATE" fsExistingA = (OpenResult.zombie, []) ∧
    tjsonFileCtor "exists.json" "NEW" fsExistingA = (OpenResult.zombie, []) ∧
    tjsonFileCtor "/dev/null" "CREATE" fsDevNull =
      (OpenResult.opened
        { fRealName := stripXmlScheme "/dev/null", fOption := "CREATE",
          fWritable := true, fDoc := none, fKeyCounter := 0,
          fIOVersion := tjsonfileClassVersion }, []) :=
  ⟨((create_on_existing_path_fails fsExistingA "exists.json").1
      (by decide) (by decide) (by decide)).1,
   ((create_on_existing_path_fails fsExistingA "exists.json").1
      (by decide) (by decide) (by decide)).2,
   (create_on_existing_path_fails fsDevNull "/dev/null").2 (by decide) (by decide)⟩
